import Mathlib

/-!
Shallow embedding of the Uplink_MacroScrapper core:
entities/economic_data.py, interfaces/database/db_model_mapper.py,
interfaces/database/aws_uploader.py, interfaces/database/sqlite_uploader.py,
interfaces/database/economic_data_repository.py and the three preprocessors
(cl_preprocessor.py, us_preprocessor.py, eu_preprocessor.py).

Python floats are modelled as exact rationals plus the special values
nan, inf and negative inf (`PyFloat`); dates as a `Date` structure with the calendar
validity that `datetime.date` enforces by construction; Python dicts as
association lists in insertion order (Python 3.7+ semantics).
-/

/-- ASCII digit character for a digit 0..9 (other inputs map to '0'). -/
def digitChar : Nat → Char
  | 0 => '0' | 1 => '1' | 2 => '2' | 3 => '3' | 4 => '4'
  | 5 => '5' | 6 => '6' | 7 => '7' | 8 => '8' | 9 => '9'
  | _ => '0'

/-- Numeric value of an ASCII digit character. -/
def charVal (c : Char) : Nat := c.toNat - 48

/-- `datetime.date`: a calendar date. Python's constructor validates ranges,
so a `Date` in flight always satisfies `Date.Valid` below. -/
structure Date where
  year : Nat
  month : Nat
  day : Nat
  deriving DecidableEq, Repr

/-- Days in a month, with leap years, as `datetime` computes them. -/
def daysInMonth (y m : Nat) : Nat :=
  if m = 2 then
    if y % 4 = 0 ∧ (y % 100 ≠ 0 ∨ y % 400 = 0) then 29 else 28
  else if m = 4 ∨ m = 6 ∨ m = 9 ∨ m = 11 then 30
  else 31

/-- The range checks `datetime.date.__new__` performs. -/
def Date.Valid (d : Date) : Prop :=
  1 ≤ d.year ∧ d.year ≤ 9999 ∧ 1 ≤ d.month ∧ d.month ≤ 12 ∧
  1 ≤ d.day ∧ d.day ≤ daysInMonth d.year d.month

instance (d : Date) : Decidable d.Valid := by
  unfold Date.Valid; infer_instance

/-- Two zero-padded decimal digits, as `date.isoformat` prints months/days. -/
def pad2 (n : Nat) : List Char := [digitChar (n / 10 % 10), digitChar (n % 10)]

/-- Four zero-padded decimal digits, as `date.isoformat` prints years ≤ 9999. -/
def pad4 (n : Nat) : List Char :=
  [digitChar (n / 1000 % 10), digitChar (n / 100 % 10),
   digitChar (n / 10 % 10), digitChar (n % 10)]

/-- `date.isoformat()`: the fixed-width "YYYY-MM-DD" rendering. -/
def formatDate (d : Date) : String :=
  String.mk (pad4 d.year ++ '-' :: pad2 d.month ++ '-' :: pad2 d.day)

/-- `date.fromisoformat` (as used by `DBModelMapper._parse_date`): accepts
exactly the 10-character "YYYY-MM-DD" shape with a valid calendar date. -/
def parseIsoDate (s : String) : Option Date :=
  match s.toList with
  | [y1, y2, y3, y4, h1, m1, m2, h2, d1, d2] =>
    if h1 = '-' ∧ h2 = '-' ∧
       ([y1, y2, y3, y4, m1, m2, d1, d2].all Char.isDigit) then
      let y := charVal y1 * 1000 + charVal y2 * 100 + charVal y3 * 10 + charVal y4
      let m := charVal m1 * 10 + charVal m2
      let d := charVal d1 * 10 + charVal d2
      if (Date.mk y m d).Valid then some (Date.mk y m d) else none
    else none
  | _ => none



/-- A Python `float` value: an exact rational for finite values (IEEE rounding
is not modelled; no claim here depends on it) plus the special values. -/
inductive PyFloat where
  | finite (q : ℚ)
  | nan
  | inf
  | ninf
  deriving DecidableEq, Repr

/-- Is the float finite (`math.isfinite`)? -/
def PyFloat.isFinite : PyFloat → Bool
  | .finite _ => true
  | _ => false

/-- Lower-case one ASCII letter, as both `str.lower` and SQLite `LOWER`
do on ASCII input (the only input the claims exercise). -/
def asciiLower (c : Char) : Char :=
  if 'A' ≤ c ∧ c ≤ 'Z' then Char.ofNat (c.toNat + 32) else c

/-- `str.lower` on ASCII strings. -/
def strLower (s : String) : String := String.mk (s.toList.map asciiLower)

/-- Value of a digit run, most significant first. -/
def digitsVal (cs : List Char) : Nat := cs.foldl (fun a c => a * 10 + charVal c) 0

/-- Whitespace stripped by `float()`/`int()`/`str.strip`. -/
def isPySpace (c : Char) : Bool := c = ' ' ∨ c = '\t' ∨ c = '\n' ∨ c = '\r'

/-- Mantissa part of the Python float grammar: `digits [. digits]` or
`. digits`, at least one digit overall.  Returns the value. -/
def parseMantissa (cs : List Char) : Option (ℚ × List Char) :=
  let intPart := cs.takeWhile Char.isDigit
  let rest := cs.dropWhile Char.isDigit
  match rest with
  | '.' :: rest' =>
    let fracPart := rest'.takeWhile Char.isDigit
    let rest'' := rest'.dropWhile Char.isDigit
    if intPart.isEmpty ∧ fracPart.isEmpty then none
    else some (((digitsVal intPart : ℚ) +
      (digitsVal fracPart : ℚ) / (10 : ℚ) ^ fracPart.length), rest'')
  | _ =>
    if intPart.isEmpty then none
    else some ((digitsVal intPart : ℚ), rest)

/-- Optional exponent suffix `e [sign] digits`. -/
def parseExponent (q : ℚ) (cs : List Char) : Option ℚ :=
  match cs with
  | [] => some q
  | e :: rest =>
    if e = 'e' ∨ e = 'E' then
      let (neg, ds) := match rest with
        | '-' :: t => (true, t)
        | '+' :: t => (false, t)
        | t => (false, t)
      if ds.isEmpty ∨ ¬ (ds.all Char.isDigit) then none
      else some (if neg then q / (10 : ℚ) ^ digitsVal ds
                 else q * (10 : ℚ) ^ digitsVal ds)
    else none

/-- The body of `float(str)` after sign removal: decimal number or one of
the named special values (case-insensitive). -/
def parsePyFloatBody (cs : List Char) : Option PyFloat :=
  let low := cs.map asciiLower
  if low = "nan".toList then some .nan
  else if low = "inf".toList ∨ low = "infinity".toList then some .inf
  else match parseMantissa cs with
    | none => none
    | some (q, rest) =>
      match parseExponent q rest with
      | none => none
      | some q' => some (.finite q')

/-- Negate a Python float. -/
def PyFloat.neg : PyFloat → PyFloat
  | .finite q => .finite (-q)
  | .nan => .nan
  | .inf => .ninf
  | .ninf => .inf

/-- Model of the builtin `float(str)`: strip whitespace, optional sign, then
a decimal number or nan/inf/infinity (case-insensitive); `none` models the
`ValueError` on any other shape (underscore separators are not modelled). -/
def pyFloatOfString (s : String) : Option PyFloat :=
  let cs := (s.toList.dropWhile isPySpace).reverse.dropWhile isPySpace |>.reverse
  match cs with
  | '-' :: rest => (parsePyFloatBody rest).map PyFloat.neg
  | '+' :: rest => parsePyFloatBody rest
  | rest => parsePyFloatBody rest

/-- Model of the builtin `int(str)` (as `eu_preprocessor` uses it on date
slices): strip whitespace, optional sign, then a nonempty digit run. -/
def pyIntOfString (s : String) : Option Int :=
  let cs := (s.toList.dropWhile isPySpace).reverse.dropWhile isPySpace |>.reverse
  let (neg, ds) := match cs with
    | '-' :: t => (true, t)
    | '+' :: t => (false, t)
    | t => (false, t)
  if ds.isEmpty ∨ ¬ (ds.all Char.isDigit) then none
  else some (if neg then -(digitsVal ds : Int) else (digitsVal ds : Int))

/-- Python `<` on floats (any comparison with nan is false). -/
def PyFloat.ltB : PyFloat → PyFloat → Bool
  | .finite p, .finite q => p < q
  | .finite _, .inf => true
  | .ninf, .finite _ => true
  | .ninf, .inf => true
  | _, _ => false

/-- Python truthiness of a string: nonempty. -/
def strTruthy (s : String) : Bool := s ≠ ""

/-- A Python runtime value as stored in a DB item or a raw point: enough of
the dynamic type universe for this repository (strings, numbers, `None`,
nested dicts). -/
inductive PyVal where
  | str (s : String)
  | num (f : PyFloat)
  | intv (n : Int)
  | pynone
  | dict (entries : List (String × PyVal))

/-- A Python `dict` in insertion order (Python 3.7+), with unique keys by
construction on every dict this code builds. -/
abbrev PyDict := List (String × PyVal)

/-- `d[k]` / `d.get(k)`: first (unique) binding of `k`. -/
def dget {α : Type} (d : List (String × α)) (k : String) : Option α :=
  match d with
  | [] => none
  | (k', v) :: rest => if k = k' then some v else dget rest k

/-- `k in d`. -/
def dmem {α : Type} (d : List (String × α)) (k : String) : Bool :=
  d.any (fun p => p.1 = k)

/-- `d[k] = v`: update in place when the key exists (position unchanged),
else append — Python dict insertion-order semantics. -/
def dictInsert {α : Type} (d : List (String × α)) (k : String) (v : α) :
    List (String × α) :=
  if dmem d k then d.map (fun p => if p.1 = k then (k, v) else p) else d ++ [(k, v)]

/-- `{**d, **m}` with the literal part `d` first: each binding of `m` either
updates in place or appends, in `m`'s order. -/
def dictMerge {α : Type} (d m : List (String × α)) : List (String × α) :=
  m.foldl (fun acc p => dictInsert acc p.1 p.2) d

/-- entities/economic_data.py `EconomicData`.  The dataclass is untyped at
runtime; this embedding types each field with the type every construction
site in the repository actually supplies. -/
structure EconomicData where
  country_code : String
  country_name : String
  indicator_id : String
  indicator_name : String
  value : PyFloat
  date : Date
  frequency : String
  unit : String
  source : String
  revision_number : Option Int
  currency : Option String
  metadata : Option PyDict

/-- The `standard_fields` set of `DBModelMapper.from_db_item`. -/
def standard_fields : List String :=
  ["PK", "SK", "country_code", "country_name", "indicator_id", "indicator_name",
   "value", "date", "unit", "frequency", "source", "year", "month", "day",
   "revision_number", "currency"]

/-- An `Optional[int]` field rendered as a dict value. -/
def optIntVal : Option Int → PyVal
  | some n => .intv n
  | none => .pynone

/-- An `Optional[str]` field rendered as a dict value. -/
def optStrVal : Option String → PyVal
  | some s => .str s
  | none => .pynone

/-- The 16 standard attributes `DBModelMapper.to_db_item` writes before
spreading the metadata. -/
def standardItem (e : EconomicData) : PyDict :=
  [("PK", .str ("COUNTRY#" ++ e.country_code)),
     ("SK", .str ("INDICATOR#" ++ e.indicator_id ++ "#" ++ formatDate e.date)),
     ("country_code", .str e.country_code),
     ("country_name", .str e.country_name),
     ("indicator_id", .str e.indicator_id),
     ("indicator_name", .str e.indicator_name),
     ("value", .num e.value),
     ("date", .str (formatDate e.date)),
     ("unit", .str e.unit),
     ("frequency", .str e.frequency),
     ("source", .str e.source),
     ("year", .intv e.date.year),
     ("month", .intv e.date.month),
     ("day", .intv e.date.day),
     ("revision_number", optIntVal e.revision_number),
     ("currency", optStrVal e.currency)]

/-- `DBModelMapper.to_db_item`: the dict literal of the 16 standard
attributes followed by `**(economic_data.metadata or {})`. -/
def to_db_item (e : EconomicData) : PyDict :=
  dictMerge (standardItem e) (e.metadata.getD [])

/-- `item.get(k, default)` for a string-typed field; `none` marks an item
whose attribute has a runtime type outside the typed dataclass model. -/
def dgetStr (item : PyDict) (k : String) (dflt : Option String) : Option String :=
  match dget item k with
  | some (.str s) => some s
  | some _ => none
  | none => dflt

/-- `item.get(k, default)` for the float-typed `value` field. -/
def dgetNum (item : PyDict) (k : String) (dflt : Option PyFloat) : Option PyFloat :=
  match dget item k with
  | some (.num f) => some f
  | some _ => none
  | none => dflt

/-- `item.get(k)` for an `Optional[int]` field (absent and `None` both map
to `None`). -/
def dgetOptInt (item : PyDict) (k : String) : Option (Option Int) :=
  match dget item k with
  | some (.intv n) => some (some n)
  | some .pynone => some none
  | some _ => none
  | none => some none

/-- `item.get(k)` for an `Optional[str]` field. -/
def dgetOptStr (item : PyDict) (k : String) : Option (Option String) :=
  match dget item k with
  | some (.str s) => some (some s)
  | some .pynone => some none
  | some _ => none
  | none => some none

/-- `item.get(k, default)` for the integer `year`/`month`/`day` components. -/
def dgetInt (item : PyDict) (k : String) (dflt : Int) : Option Int :=
  match dget item k with
  | some (.intv n) => some n
  | some _ => none
  | none => some dflt

/-- The `else` branch of the date extraction in `from_db_item`:
`date(year=item.get("year", 2000), month=item.get("month", 1),
day=item.get("day", 1))`; `none` models the `ValueError`/`TypeError` the
`date` constructor raises on an invalid triple. -/
def dateFromParts (item : PyDict) : Option Date := do
  let y ← dgetInt item "year" 2000
  let m ← dgetInt item "month" 1
  let dd ← dgetInt item "day" 1
  if 0 ≤ y ∧ 0 ≤ m ∧ 0 ≤ dd then
    let d := Date.mk y.toNat m.toNat dd.toNat
    if d.Valid then some d else none
  else none

/-- `DBModelMapper.from_db_item`.  `none` models an escaping exception
(e.g. `date.fromisoformat` on a malformed string) or an item whose standard
attribute carries a runtime type the dataclass fields never hold in this
repository. -/
def from_db_item (item : PyDict) : Option EconomicData := do
  let date_obj ← (match dget item "date" with
    | some (.str s) => parseIsoDate s
    | _ => dateFromParts item)
  let metadata := item.filter (fun p => ¬ standard_fields.contains p.1)
  let cc ← dgetStr item "country_code" none
  let cn ← dgetStr item "country_name" none
  let iid ← dgetStr item "indicator_id" none
  let iname ← dgetStr item "indicator_name" none
  let v ← dgetNum item "value" (some (.finite 0))
  let u ← dgetStr item "unit" (some "")
  let fq ← dgetStr item "frequency" (some "monthly")
  let src ← dgetStr item "source" (some "")
  let rev ← dgetOptInt item "revision_number"
  let cur ← dgetOptStr item "currency"
  pure { country_code := cc, country_name := cn, indicator_id := iid,
         indicator_name := iname, value := v, date := date_obj,
         frequency := fq, unit := u, source := src, revision_number := rev,
         currency := cur, metadata := some metadata }

/-- Split a character list on a separator, `str.split` style. -/
def splitOn (sep : Char) : List Char → List (List Char)
  | [] => [[]]
  | c :: rest =>
    match splitOn sep rest with
    | [] => [[]]
    | g :: gs => if c = sep then [] :: g :: gs else (c :: g) :: gs

/-- `c in s` for one character. -/
def strContainsChar (s : String) (c : Char) : Bool := s.toList.contains c

/-- The `%m` regex of CPython strptime (`1[0-2]|0[1-9]|[1-9]`) applied to a
full component: 1–2 digits with value 1..12. -/
def monthComponentOk (p : List Char) : Bool :=
  p.all Char.isDigit && (p.length = 1 ∨ p.length = 2) &&
  1 ≤ digitsVal p && digitsVal p ≤ 12

/-- The `%d` regex of CPython strptime (`3[01]|[1-2]\d|0[1-9]|[1-9]`)
applied to a full component: 1–2 digits with value 1..31. -/
def dayComponentOk (p : List Char) : Bool :=
  p.all Char.isDigit && (p.length = 1 ∨ p.length = 2) &&
  1 ≤ digitsVal p && digitsVal p ≤ 31

/-- Exactly four digits, the `%Y` regex of CPython strptime. -/
def yearComponentOk (p : List Char) : Bool := p.all Char.isDigit && p.length = 4

/-- `datetime.strptime(s, "%Y-%m-%d").date()`: `none` models the caught
`ValueError` (no match, unconverted data, or invalid calendar date). -/
def parseStrptimeYmd (s : String) : Option Date :=
  match splitOn '-' s.toList with
  | [yp, mp, dp] =>
    if yearComponentOk yp && monthComponentOk mp && dayComponentOk dp then
      let d := Date.mk (digitsVal yp) (digitsVal mp) (digitsVal dp)
      if d.Valid then some d else none
    else none
  | _ => none

/-- `datetime.strptime(s, "%Y%m%d").date()`: the regex consumes four year
digits, then month and day per their alternation order with backtracking,
requiring full consumption, then the date constructor validates. -/
def parseStrptimeYmd8 (s : String) : Option Date :=
  let cs := s.toList
  if ¬ (cs.all Char.isDigit) then none
  else
    let yp := cs.take 4
    let rest := cs.drop 4
    let mk (mp dp : List Char) : Option Date :=
      let d := Date.mk (digitsVal yp) (digitsVal mp) (digitsVal dp)
      if d.Valid then some d else none
    if cs.length = 8 then
      if monthComponentOk (rest.take 2) && dayComponentOk (rest.drop 2) then
        mk (rest.take 2) (rest.drop 2)
      else none
    else if cs.length = 7 then
      if monthComponentOk (rest.take 2) && dayComponentOk (rest.drop 2) then
        mk (rest.take 2) (rest.drop 2)
      else if monthComponentOk (rest.take 1) && dayComponentOk (rest.drop 1) then
        mk (rest.take 1) (rest.drop 1)
      else none
    else if cs.length = 6 then
      if monthComponentOk (rest.take 1) && dayComponentOk (rest.drop 1) then
        mk (rest.take 1) (rest.drop 1)
      else none
    else none

/-- `datetime.strptime(s, "%d/%m/%Y").date()`. -/
def parseStrptimeDmy (s : String) : Option Date :=
  match splitOn '/' s.toList with
  | [dp, mp, yp] =>
    if yearComponentOk yp && monthComponentOk mp && dayComponentOk dp then
      let d := Date.mk (digitsVal yp) (digitsVal mp) (digitsVal dp)
      if d.Valid then some d else none
    else none
  | _ => none

/-- `datetime.strptime(s, "%Y%m").date()` (day defaults to 1). -/
def parseStrptimeYm (s : String) : Option Date :=
  let cs := s.toList
  if ¬ (cs.all Char.isDigit) then none
  else if cs.length = 6 ∨ cs.length = 5 then
    if monthComponentOk (cs.drop 4) then
      let d := Date.mk (digitsVal (cs.take 4)) (digitsVal (cs.drop 4)) 1
      if d.Valid then some d else none
    else none
  else none

/-- eu_preprocessor quarter notation: `year = int(s[:4]); quarter = int(s[5:]);
month = (quarter - 1) * 3 + 1; datetime(year, month, 1)`; `none` models the
caught `ValueError` from either `int()` or the `datetime` constructor. -/
def parseQuarterDate (s : String) : Option Date := do
  let cs := s.toList
  let y ← pyIntOfString (String.mk (cs.take 4))
  let q ← pyIntOfString (String.mk (cs.drop 5))
  let m : Int := (q - 1) * 3 + 1
  if 0 ≤ y ∧ 0 ≤ m then
    let d := Date.mk y.toNat m.toNat 1
    if d.Valid then some d else none
  else none

/-- The eu_preprocessor CSV date dispatch: ISO if the string contains `-`,
`%d/%m/%Y` if it contains `/`, quarter notation if it contains `Q`, else
`%Y%m`. -/
def euParseDate (s : String) : Option Date :=
  if strContainsChar s '-' then parseStrptimeYmd s
  else if strContainsChar s '/' then parseStrptimeDmy s
  else if strContainsChar s 'Q' then parseQuarterDate s
  else parseStrptimeYm s

/-- The us_preprocessor date dispatch: ISO if the string contains `-`,
else compact `%Y%m%d`. -/
def usParseDate (s : String) : Option Date :=
  if strContainsChar s '-' then parseStrptimeYmd s else parseStrptimeYmd8 s

/-- Python truthiness of an optional raw-point field (`point.get(k)`). -/
def pyTruthy : Option PyVal → Bool
  | none => false
  | some (.str s) => s ≠ ""
  | some (.num (.finite q)) => q ≠ 0
  | some (.num _) => true
  | some (.intv n) => n ≠ 0
  | some .pynone => false
  | some (.dict d) => ¬ d.isEmpty

/-- The two exception classes this code distinguishes: `ValueError` is
caught at point level, anything else escapes the point loop. -/
inductive PyErr where
  | valueError
  | typeError
  deriving DecidableEq

/-- The builtin `float(x)` on a raw-point field value. -/
def floatOfVal : PyVal → Except PyErr PyFloat
  | .str s =>
    match pyFloatOfString s with
    | some f => .ok f
    | none => .error .valueError
  | .num f => .ok f
  | .intv n => .ok (.finite (n : ℚ))
  | .pynone => .error .typeError
  | .dict _ => .error .typeError

/-- Remove every occurrence of one character (`str.replace(c, "")`). -/
def removeChar (c : Char) (s : String) : String :=
  String.mk (s.toList.filter (fun x => x ≠ c))

/-- `str.strip()` (on the whitespace the claims exercise). -/
def strStrip (s : String) : String :=
  String.mk ((s.toList.dropWhile isPySpace).reverse.dropWhile isPySpace |>.reverse)

/-- The eu_preprocessor value parse: `float(value_str)`, and on `ValueError`
one retry on `value_str.replace(",", "").replace("%", "").strip()`. -/
def euFloatValue : PyVal → Except PyErr PyFloat
  | .str s =>
    match pyFloatOfString s with
    | some f => .ok f
    | none =>
      match pyFloatOfString (strStrip (removeChar '%' (removeChar ',' s))) with
      | some f => .ok f
      | none => .error .valueError
  | .num f => .ok f
  | .intv n => .ok (.finite (n : ℚ))
  | .pynone => .error .typeError
  | .dict _ => .error .typeError

/-- `point.get("revision", 0)` (EconomicData is untyped at runtime; a
non-integer revision value is outside the typed model and read as 0). -/
def getRevision (point : PyDict) : Int :=
  match dget point "revision" with
  | some (.intv n) => n
  | _ => 0

/-- Per-metric context a preprocessor resolves before its point loop
(static lookup tables, constants, payload hints). -/
structure IndicatorCtx where
  country_code : String
  country_name : String
  indicator_id : String
  indicator_name : String
  unit : String
  frequency : String
  currency : Option String

/-- Outcome of one iteration of a point loop. -/
inductive StepRes where
  | emit (r : EconomicData)
  | skipPoint
  | raise (e : PyErr)

/-- One iteration of the cl_preprocessor.process point loop: truthiness
guard on `date`/`value`, strict `%Y-%m-%d` date parse (skip on failure),
`float(value_str)` with no cleanup pass (skip on `ValueError`). -/
def clStep (ctx : IndicatorCtx) (point : PyDict) : StepRes :=
  let date_v := dget point "date"
  let value_v := dget point "value"
  if ¬ pyTruthy date_v ∨ ¬ pyTruthy value_v then .skipPoint
  else
    match date_v with
    | some (.str ds) =>
      match parseStrptimeYmd ds with
      | none => .skipPoint
      | some date_obj =>
        match value_v with
        | some vv =>
          match floatOfVal vv with
          | .error .valueError => .skipPoint
          | .error e => .raise e
          | .ok value =>
            .emit { country_code := ctx.country_code,
                    country_name := ctx.country_name,
                    indicator_id := ctx.indicator_id,
                    indicator_name := ctx.indicator_name,
                    value := value, date := date_obj,
                    unit := ctx.unit, frequency := ctx.frequency,
                    source := "Banco Central de Chile",
                    revision_number := some 0,
                    currency := ctx.currency,
                    metadata := some [("original_data", .dict point),
                                      ("processor", .str "ChilePreprocessor")] }
        | none => .skipPoint
    | _ => .raise .typeError

/-- One iteration of the us_preprocessor.process point loop: same guard,
two date formats chosen by a `-` test, `float(value_str)` with no cleanup,
revision taken from the point. -/
def usStep (ctx : IndicatorCtx) (point : PyDict) : StepRes :=
  let date_v := dget point "date"
  let value_v := dget point "value"
  if ¬ pyTruthy date_v ∨ ¬ pyTruthy value_v then .skipPoint
  else
    match date_v with
    | some (.str ds) =>
      match usParseDate ds with
      | none => .skipPoint
      | some date_obj =>
        match value_v with
        | some vv =>
          match floatOfVal vv with
          | .error .valueError => .skipPoint
          | .error e => .raise e
          | .ok value =>
            .emit { country_code := ctx.country_code,
                    country_name := ctx.country_name,
                    indicator_id := ctx.indicator_id,
                    indicator_name := ctx.indicator_name,
                    value := value, date := date_obj,
                    unit := ctx.unit, frequency := ctx.frequency,
                    source := "US Federal Reserve",
                    revision_number := some (getRevision point),
                    currency := ctx.currency,
                    metadata := some [("original_data", .dict point),
                                      ("processor", .str "USPreprocessor")] }
        | none => .skipPoint
    | _ => .raise .typeError

/-- One iteration of `eu_preprocessor._process_csv_data`: key-presence
guard (not truthiness), four-way date dispatch, value parse with one
cleanup retry, frequency derived from the date string. -/
def euCsvStep (ctx : IndicatorCtx) (date_col value_col : String)
    (point : PyDict) : StepRes :=
  if ¬ dmem point date_col ∨ ¬ dmem point value_col then .skipPoint
  else
    match dget point date_col with
    | some (.str ds) =>
      match euParseDate ds with
      | none => .skipPoint
      | some date_obj =>
        match dget point value_col with
        | some vv =>
          match euFloatValue vv with
          | .error .valueError => .skipPoint
          | .error e => .raise e
          | .ok value =>
            .emit { country_code := ctx.country_code,
                    country_name := ctx.country_name,
                    indicator_id := ctx.indicator_id,
                    indicator_name := ctx.indicator_name,
                    value := value, date := date_obj,
                    unit := ctx.unit,
                    frequency := if strContainsChar ds 'Q' then "quarterly"
                                 else "monthly",
                    source := "European Central Bank",
                    revision_number := some (getRevision point),
                    currency := ctx.currency,
                    metadata := some [("original_data", .dict point),
                                      ("processor", .str "EUPreprocessor")] }
        | none => .skipPoint
    | _ => .raise .typeError

/-- The cl/us point loop: records are appended to the caller's accumulator
as the loop runs, so an escaping exception keeps the records already
emitted (the metric-level `except Exception` only stops the loop). -/
def processPoints (step : PyDict → StepRes) : List PyDict → List EconomicData
  | [] => []
  | p :: ps =>
    match step p with
    | .emit r => r :: processPoints step ps
    | .skipPoint => processPoints step ps
    | .raise _ => []

/-- The eu CSV point loop builds a local `result` list and returns it, so
an escaping exception discards the whole metric's records (`none`). -/
def euCsvPoints (step : PyDict → StepRes) : List PyDict →
    Option (List EconomicData)
  | [] => some []
  | p :: ps =>
    match step p with
    | .emit r => (euCsvPoints step ps).map (r :: ·)
    | .skipPoint => euCsvPoints step ps
    | .raise _ => none

/-- One metric of eu_preprocessor.process in CSV format: the metric-level
`except Exception` turns an escaping exception into no records. -/
def euProcessCsvMetric (ctx : IndicatorCtx) (date_col value_col : String)
    (points : List PyDict) : List EconomicData :=
  (euCsvPoints (euCsvStep ctx date_col value_col) points).getD []

/-- `range(0, len, 25)` slicing of `AWSUploader.upload`: fixed chunks of 25
in input order, last chunk short. -/
def chunks25 {α : Type} : List α → List (List α)
  | [] => []
  | x :: xs => (x :: xs.take 24) :: chunks25 (xs.drop 24)
termination_by l => l.length
decreasing_by simp only [List.length_cons, List.length_drop]; omega

/-- Result of one `AWSUploader.upload` call: the returned boolean and the
batches handed to `db_client.batch_write_items`, in call order. -/
structure AwsResult where
  success : Bool
  batches : List (List PyDict)

namespace AWSUploader

/-- `AWSUploader.upload`, parameterised over the backend client's
`batch_write_items` behaviour (`.ok b` a returned boolean, `.error` a
raised exception — both only mark `success = False`, the loop continues). -/
def upload (client : List PyDict → Except Unit Bool)
    (data : List EconomicData) : AwsResult :=
  if data.isEmpty then ⟨false, []⟩
  else
    let db_items := data.map to_db_item
    let bs := chunks25 db_items
    ⟨bs.all (fun b => match client b with | .ok true => true | _ => false), bs⟩

end AWSUploader

/-- One row of the `economic_data` SQLite table. -/
structure SqlRow where
  pk : String
  sk : String
  country_code : String
  country_name : String
  indicator_id : String
  indicator_name : String
  frequency : String
  date : String
  value : PyFloat
  unit : String
  source : String
  revision_number : Option Int
  currency : Option String
  deriving DecidableEq, Repr

/-- The parameter tuple `SQLiteUploader.upload` binds for one record. -/
def rowOf (item : EconomicData) : SqlRow :=
  { pk := "COUNTRY#" ++ item.country_code,
    sk := "INDICATOR#" ++ item.indicator_id ++ "#" ++ formatDate item.date,
    country_code := item.country_code,
    country_name := item.country_name,
    indicator_id := item.indicator_id,
    indicator_name := item.indicator_name,
    frequency := item.frequency,
    date := formatDate item.date,
    value := item.value,
    unit := item.unit,
    source := item.source,
    revision_number := item.revision_number,
    currency := item.currency }

/-- `INSERT OR REPLACE` keyed by `PRIMARY KEY (pk, sk)`. -/
def upsertRow (t : List SqlRow) (r : SqlRow) : List SqlRow :=
  if t.any (fun x => x.pk = r.pk ∧ x.sk = r.sk) then
    t.map (fun x => if x.pk = r.pk ∧ x.sk = r.sk then r else x)
  else t ++ [r]

/-- Result of one `SQLiteUploader.upload` call: the returned boolean, the
inserts that executed inside the call, and the table after the call. -/
structure SqliteResult where
  success : Bool
  executed : List SqlRow
  table : List SqlRow

namespace SQLiteUploader

/-- The row loop of `SQLiteUploader.upload`.  `execOk` is the backend
behaviour of `conn.execute` on one row (`false` = raises).  A raising row
is caught, logged and ends the call with `False`; because the exception is
caught inside the `with sqlite3.connect(...)` block, the context manager
exits cleanly and COMMITS the inserts already executed — they stay in the
table. -/
def uploadLoop (execOk : SqlRow → Bool) (t : List SqlRow)
    (done : List SqlRow) : List EconomicData → SqliteResult
  | [] => ⟨true, done, t⟩
  | item :: rest =>
    let r := rowOf item
    if execOk r then uploadLoop execOk (upsertRow t r) (done ++ [r]) rest
    else ⟨false, done, t⟩

/-- `SQLiteUploader.upload` on a table state. -/
def upload (execOk : SqlRow → Bool) (table : List SqlRow)
    (data : List EconomicData) : SqliteResult :=
  if data.isEmpty then ⟨false, [], table⟩
  else uploadLoop execOk table [] data

end SQLiteUploader

/-- `needle` starts `hay`. -/
def startsWithL (needle hay : List Char) : Bool :=
  match needle, hay with
  | [], _ => true
  | _ :: _, [] => false
  | n :: ns, h :: hs => n = h && startsWithL ns hs

/-- Substring containment, the meaning of `LIKE '%kw%'`. -/
def containsSubL (hay needle : List Char) : Bool :=
  match hay with
  | [] => needle.isEmpty
  | _ :: t => startsWithL needle hay || containsSubL t needle

/-- Substring containment on strings. -/
def strContainsSub (hay needle : String) : Bool :=
  containsSubL hay.toList needle.toList

/-- SQLite binary text comparison (codepoint lexicographic on ASCII). -/
def strLtL : List Char → List Char → Bool
  | [], [] => false
  | [], _ :: _ => true
  | _ :: _, [] => false
  | a :: restA, b :: restB =>
    if a.toNat < b.toNat then true
    else if b.toNat < a.toNat then false
    else strLtL restA restB

/-- SQLite binary text comparison on strings. -/
def strLtB (a b : String) : Bool := strLtL a.toList b.toList

/-- Stable insertion of `x` after every element `y` with `le y x`. -/
def insertSorted {α : Type} (le : α → α → Bool) (x : α) : List α → List α
  | [] => [x]
  | y :: ys => if le y x then y :: insertSorted le x ys else x :: y :: ys

/-- Stable sort by a boolean "may come before" relation (matches Python's
stable `sorted` and gives one order consistent with a SQL `ORDER BY`). -/
def sortByB {α : Type} (le : α → α → Bool) (l : List α) : List α :=
  l.foldl (fun acc x => insertSorted le x acc) []

/-- `ORDER BY indicator_id, date DESC` as a "may come before" relation. -/
def scanOrder (r1 r2 : SqlRow) : Bool :=
  strLtB r1.indicator_id r2.indicator_id ||
  (r1.indicator_id = r2.indicator_id && ¬ strLtB r1.date r2.date)

/-- The `results` dict of `get_latest_by_indicator_name`: first row
encountered per `indicator_id`, in insertion order. -/
def firstPerIndicator (rows : List SqlRow) : List SqlRow :=
  go [] rows
where
  go (acc : List SqlRow) : List SqlRow → List SqlRow
    | [] => acc
    | r :: rs =>
      if acc.any (fun x => x.indicator_id = r.indicator_id) then go acc rs
      else go (acc ++ [r]) rs

/-- The record the repository constructs from a row.  The Python code
reuses the untyped `EconomicData` dataclass with the raw TEXT date; the
typed embedding gives the read-path record its own shape. -/
structure RepoRecord where
  country_code : String
  country_name : String
  indicator_id : String
  indicator_name : String
  value : PyFloat
  date : String
  frequency : String
  unit : String
  source : String
  revision_number : Option Int
  currency : Option String
  deriving DecidableEq, Repr

/-- Row-to-record construction in the repository (metadata is `None`). -/
def recordOfRow (r : SqlRow) : RepoRecord :=
  { country_code := r.country_code, country_name := r.country_name,
    indicator_id := r.indicator_id, indicator_name := r.indicator_name,
    value := r.value, date := r.date, frequency := r.frequency,
    unit := r.unit, source := r.source,
    revision_number := r.revision_number, currency := r.currency }

/-- `sorted(results.values(), key=lambda x: x.value, reverse=True)` as a
"may come before" relation: stable descending by value. -/
def valueDescOrder (a b : RepoRecord) : Bool := ¬ PyFloat.ltB a.value b.value

namespace EconomicDataRepository

/-- `EconomicDataRepository.get_latest_by_indicator_name` over a table
state: WHERE filter (case-insensitive substring on the indicator name),
scan in `(indicator_id, date DESC)` order, keep the first row per
`indicator_id`, return sorted by value descending. -/
def get_latest_by_indicator_name (table : List SqlRow)
    (country_code keyword : String) : List RepoRecord :=
  let matching := table.filter (fun r =>
    r.country_code = country_code ∧
    strContainsSub (strLower r.indicator_name) (strLower keyword))
  let scan := sortByB scanOrder matching
  sortByB valueDescOrder ((firstPerIndicator scan).map recordOfRow)

end EconomicDataRepository


/-! ## Concrete fixtures used by the theorems below -/

/-- A canonical record with ordinary field values and collision-free
metadata. -/
def sampleRecord : EconomicData :=
  { country_code := "CL", country_name := "Chile",
    indicator_id := "GDP", indicator_name := "Gross Domestic Product",
    value := .finite 7, date := Date.mk 2024 2 29, frequency := "monthly",
    unit := "%", source := "Banco Central de Chile", revision_number := some 3,
    currency := some "CLP",
    metadata := some [("foo", .str "bar"), ("baz", .intv 9)] }

/-- The same record with a metadata key that collides with the standard
attribute `value`. -/
def collideRecord : EconomicData :=
  { sampleRecord with
    metadata := some [("value", .num (.finite 99))] }

/-- The same record with `metadata = None`. -/
def noMetaRecord : EconomicData :=
  { sampleRecord with
    metadata := none }

/-- A generic per-metric context for preprocessor scenarios. -/
def demoCtx : IndicatorCtx :=
  { country_code := "CL", country_name := "Chile",
    indicator_id := "GDP", indicator_name := "Gdp", unit := "%",
    frequency := "monthly", currency := none }

/-- "imports" row, 2024-01-01, value 10. -/
def impJanRow : SqlRow :=
  { pk := "COUNTRY#US", sk := "INDICATOR#IMP#2024-01-01",
    country_code := "US", country_name := "United States",
    indicator_id := "IMP", indicator_name := "Imports",
    frequency := "monthly", date := "2024-01-01", value := .finite 10,
    unit := "USD", source := "src", revision_number := some 0,
    currency := some "USD" }

/-- "imports" row, 2024-02-01, value 20. -/
def impFebRow : SqlRow :=
  { impJanRow with
    sk := "INDICATOR#IMP#2024-02-01", date := "2024-02-01",
    value := .finite 20 }

/-- "exports" row, value 50. -/
def expRow : SqlRow :=
  { impJanRow with
    sk := "INDICATOR#EXP#2024-01-15", indicator_id := "EXP",
    indicator_name := "Exports", date := "2024-01-15", value := .finite 50 }

/-- Two records addressed to distinct (pk, sk) keys for the SQLite
uploader scenarios. -/
def sqlRecA : EconomicData :=
  { sampleRecord with
    indicator_id := "A", metadata := none }

/-- Second record for the SQLite uploader scenarios. -/
def sqlRecB : EconomicData :=
  { sampleRecord with
    indicator_id := "B", metadata := none }

/-- A backend behaviour where `conn.execute` raises exactly on the row of
`sqlRecB`. -/
def execFailsOnB (r : SqlRow) : Bool := r.indicator_id != "B"

/-- What `noMetaRecord` becomes after one mapper round trip: `metadata`
normalised from `None` to the empty dict. -/
def noMetaRoundTrip : EconomicData :=
  { noMetaRecord with
    metadata := some [] }

/-! ## Helper lemmas -/

theorem charVal_digitChar {k : Nat} (h : k < 10) : charVal (digitChar k) = k := by
  interval_cases k <;> rfl

theorem digitChar_isDigit {k : Nat} (h : k < 10) : (digitChar k).isDigit = true := by
  interval_cases k <;> rfl

theorem digitChar_val_bounds {k : Nat} (h : k < 10) :
    48 ≤ (digitChar k).val ∧ (digitChar k).val ≤ 57 := by
  interval_cases k <;> exact ⟨by decide, by decide⟩

theorem parseIsoDate_formatDate (d : Date) (h : d.Valid) :
    parseIsoDate (formatDate d) = some d := by
  obtain ⟨h1, h2, h3, h4, h5, h6⟩ := h
  have hy : d.year < 10000 := by omega
  have hm : d.month < 100 := by omega
  have hd : d.day ≤ 31 := by
    have : daysInMonth d.year d.month ≤ 31 := by
      unfold daysInMonth; split <;> [split <;> omega; (split <;> omega)]
    omega
  unfold parseIsoDate formatDate pad4 pad2
  simp only [String.toList, String.mk, List.cons_append, List.nil_append]
  have hAll : ∀ k : Nat, (digitChar (k % 10)).isDigit = true := fun k =>
    digitChar_isDigit (Nat.mod_lt _ (by norm_num))
  simp only [List.all_cons, List.all_nil, hAll, Bool.and_self, Bool.and_true, and_true,
    Char.isDigit]
  rw [if_pos]
  · have hv : ∀ k : Nat, charVal (digitChar (k % 10)) = k % 10 := fun k =>
      charVal_digitChar (Nat.mod_lt _ (by norm_num))
    simp only [hv]
    have ey : d.year / 1000 % 10 * 1000 + d.year / 100 % 10 * 100 +
        d.year / 10 % 10 * 10 + d.year % 10 = d.year := by omega
    have em : d.month / 10 % 10 * 10 + d.month % 10 = d.month := by omega
    have ed : d.day / 10 % 10 * 10 + d.day % 10 = d.day := by omega
    rw [ey, em, ed, if_pos]
    exact ⟨h1, h2, h3, h4, h5, h6⟩
  · have hB : ∀ k : Nat, 48 ≤ (digitChar (k % 10)).val ∧ (digitChar (k % 10)).val ≤ 57 :=
      fun k => digitChar_val_bounds (Nat.mod_lt _ (by norm_num))
    refine ⟨trivial, trivial, ?_⟩
    simp only [Bool.and_eq_true, decide_eq_true_eq, ge_iff_le]
    exact ⟨hB _, hB _, hB _, hB _, hB _, hB _, hB _, hB _⟩


theorem dictInsert_of_not_mem {α : Type} {d : List (String × α)} {k : String}
    {v : α} (h : dmem d k = false) : dictInsert d k v = d ++ [(k, v)] := by
  simp [dictInsert, h]

theorem dmem_append {α : Type} (a b : List (String × α)) (k : String) :
    dmem (a ++ b) k = (dmem a k || dmem b k) := by
  simp [dmem, List.any_append]

theorem dictMerge_of_disjoint {α : Type} :
    ∀ (m d : List (String × α)), (∀ p ∈ m, dmem d p.1 = false) →
    (m.map Prod.fst).Nodup → dictMerge d m = d ++ m := by
  intro m
  induction m with
  | nil => intro d _ _; simp [dictMerge]
  | cons p t ih =>
    intro d hdisj hnodup
    have h1 : dictInsert d p.1 p.2 = d ++ [(p.1, p.2)] :=
      dictInsert_of_not_mem (hdisj p (List.mem_cons_self p t))
    have h2 : dictMerge d (p :: t) = dictMerge (d ++ [(p.1, p.2)]) t := by
      simp [dictMerge, h1]
    rw [h2, ih (d ++ [(p.1, p.2)])]
    · simp
    · intro q hq
      rw [dmem_append]
      have hq1 : dmem d q.1 = false := hdisj q (List.mem_cons_of_mem p hq)
      have hq2 : q.1 ≠ p.1 := by
        simp only [List.map_cons, List.nodup_cons] at hnodup
        intro he
        exact hnodup.1 (he ▸ List.mem_map_of_mem Prod.fst hq)
      have hsing : dmem [(p.1, p.2)] q.1 = false := by
        simp only [dmem, List.any_cons, List.any_nil, Bool.or_false,
          decide_eq_false_iff_not]
        exact fun he => hq2 he.symm
      rw [hq1, hsing]
      rfl
    · simp only [List.map_cons, List.nodup_cons] at hnodup
      exact hnodup.2

theorem from_db_item_metadata (item : PyDict) (r : EconomicData)
    (h : from_db_item item = some r) :
    r.metadata = some (item.filter (fun p => ¬ standard_fields.contains p.1)) := by
  unfold from_db_item at h
  simp only [Option.bind_eq_bind, Option.bind_eq_some, Option.pure_def,
    Option.some.injEq] at h
  obtain ⟨d, _, cc, _, cn, _, iid, _, iname, _, v, _, u, _, fq, _, src, _,
    rev, _, cur, _, hr⟩ := h
  rw [← hr]

theorem cl_emits_parsed_value (ctx : IndicatorCtx) (ds vs : String)
    (f : PyFloat) (dt : Date) (hdate : parseStrptimeYmd ds = some dt)
    (hval : pyFloatOfString vs = some f) :
    (processPoints (clStep ctx)
      [[("date", .str ds), ("value", .str vs)]]).map EconomicData.value
      = [f] := by
  have hds : ds ≠ "" := by
    rintro rfl
    exact Option.noConfusion hdate
  have hvs : vs ≠ "" := by
    rintro rfl
    exact Option.noConfusion hval
  simp [processPoints, clStep, dget, pyTruthy, hds, hvs, hdate, floatOfVal,
    hval]

theorem us_emits_parsed_value (ctx : IndicatorCtx) (ds vs : String)
    (f : PyFloat) (dt : Date) (hdate : usParseDate ds = some dt)
    (hval : pyFloatOfString vs = some f) :
    (processPoints (usStep ctx)
      [[("date", .str ds), ("value", .str vs)]]).map EconomicData.value
      = [f] := by
  have hds : ds ≠ "" := by
    rintro rfl
    exact Option.noConfusion hdate
  have hvs : vs ≠ "" := by
    rintro rfl
    exact Option.noConfusion hval
  simp [processPoints, usStep, dget, pyTruthy, hds, hvs, hdate, floatOfVal,
    hval]

theorem eu_emits_parsed_value (ctx : IndicatorCtx) (ds vs : String)
    (f : PyFloat) (dt : Date) (hdate : euParseDate ds = some dt)
    (hval : pyFloatOfString vs = some f) :
    (euProcessCsvMetric ctx "date" "value"
      [[("date", .str ds), ("value", .str vs)]]).map EconomicData.value
      = [f] := by
  simp [euProcessCsvMetric, euCsvPoints, euCsvStep, dget, dmem, hdate,
    euFloatValue, hval]

theorem cl_skips_unparsable_value (ctx : IndicatorCtx) (ds vs : String)
    (dt : Date) (hdate : parseStrptimeYmd ds = some dt)
    (hval : pyFloatOfString vs = none) :
    processPoints (clStep ctx) [[("date", .str ds), ("value", .str vs)]]
      = [] := by
  have hds : ds ≠ "" := by
    rintro rfl
    exact Option.noConfusion hdate
  by_cases hvs : vs = ""
  · subst hvs
    simp [processPoints, clStep, dget, pyTruthy]
  · simp [processPoints, clStep, dget, pyTruthy, hds, hvs, hdate, floatOfVal,
      hval]

theorem us_skips_unparsable_value (ctx : IndicatorCtx) (ds vs : String)
    (dt : Date) (hdate : usParseDate ds = some dt)
    (hval : pyFloatOfString vs = none) :
    processPoints (usStep ctx) [[("date", .str ds), ("value", .str vs)]]
      = [] := by
  have hds : ds ≠ "" := by
    rintro rfl
    exact Option.noConfusion hdate
  by_cases hvs : vs = ""
  · subst hvs
    simp [processPoints, usStep, dget, pyTruthy]
  · simp [processPoints, usStep, dget, pyTruthy, hds, hvs, hdate, floatOfVal,
      hval]

theorem clStep_skips_bad_date (ctx : IndicatorCtx) (ds : String) (v : PyVal)
    (hdate : parseStrptimeYmd ds = none) :
    clStep ctx [("date", .str ds), ("value", v)] = .skipPoint := by
  by_cases hds : ds = ""
  · subst hds
    simp [clStep, dget, pyTruthy]
  · by_cases hv : pyTruthy (some v) = true
    · simp [clStep, dget, pyTruthy, hds, hv, hdate]
    · rw [Bool.not_eq_true] at hv
      simp [clStep, dget, hv]

theorem usStep_skips_bad_date (ctx : IndicatorCtx) (ds : String) (v : PyVal)
    (hdate : usParseDate ds = none) :
    usStep ctx [("date", .str ds), ("value", v)] = .skipPoint := by
  by_cases hds : ds = ""
  · subst hds
    simp [usStep, dget, pyTruthy]
  · by_cases hv : pyTruthy (some v) = true
    · simp [usStep, dget, pyTruthy, hds, hv, hdate]
    · rw [Bool.not_eq_true] at hv
      simp [usStep, dget, hv]

theorem euCsvStep_skips_bad_date (ctx : IndicatorCtx) (ds : String)
    (v : PyVal) (hdate : euParseDate ds = none) :
    euCsvStep ctx "date" "value" [("date", .str ds), ("value", v)]
      = .skipPoint := by
  simp [euCsvStep, dget, dmem, hdate]

theorem uploadLoop_spec (execOk : SqlRow → Bool) :
    ∀ (data : List EconomicData) (t done : List SqlRow),
    (SQLiteUploader.uploadLoop execOk t done data).success
        = (data.map rowOf).all execOk ∧
    (SQLiteUploader.uploadLoop execOk t done data).executed
        = done ++ (data.map rowOf).takeWhile execOk ∧
    (SQLiteUploader.uploadLoop execOk t done data).table
        = ((data.map rowOf).takeWhile execOk).foldl upsertRow t := by
  intro data
  induction data with
  | nil => intro t done; simp [SQLiteUploader.uploadLoop]
  | cons item rest ih =>
    intro t done
    by_cases h : execOk (rowOf item)
    · simpa [SQLiteUploader.uploadLoop, h] using ih (upsertRow t (rowOf item))
        (done ++ [rowOf item])
    · simp [SQLiteUploader.uploadLoop, h]

theorem chunks25_map_length {α : Type} (l : List α) (h : l ≠ []) :
    (chunks25 l).map List.length =
      min l.length 25 :: (chunks25 (l.drop 25)).map List.length := by
  cases l with
  | nil => exact absurd rfl h
  | cons x xs =>
    simp only [chunks25, List.map_cons, List.length_cons, List.length_take,
      List.drop_succ_cons]
    congr 1
    omega

theorem insertSorted_perm {α : Type} (le : α → α → Bool) (x : α) :
    ∀ l : List α, (insertSorted le x l).Perm (x :: l) := by
  intro l
  induction l with
  | nil => exact List.Perm.refl _
  | cons y ys ih =>
    unfold insertSorted
    by_cases h : le y x
    · simp only [h, if_true]
      exact (ih.cons y).trans (List.Perm.swap x y ys)
    · simp only [h, if_false]
      exact List.Perm.refl _

theorem sortByB_perm_aux {α : Type} (le : α → α → Bool) :
    ∀ (l acc : List α),
      (l.foldl (fun a x => insertSorted le x a) acc).Perm (acc ++ l) := by
  intro l
  induction l with
  | nil => intro acc; simp
  | cons x xs ih =>
    intro acc
    have h1 := ih (insertSorted le x acc)
    have h2 : (insertSorted le x acc ++ xs).Perm (acc ++ x :: xs) := by
      have h3 := (insertSorted_perm le x acc).append_right xs
      refine h3.trans ?_
      exact (List.perm_middle).symm
    simpa [List.foldl_cons] using h1.trans h2

theorem sortByB_perm {α : Type} (le : α → α → Bool) (l : List α) :
    (sortByB le l).Perm l := by
  simpa [sortByB] using sortByB_perm_aux le l []

theorem firstPerIndicator_go_ids_nodup :
    ∀ (rows acc : List SqlRow),
      ((acc.map (fun r => r.indicator_id)).Nodup) →
      (((firstPerIndicator.go acc rows).map (fun r => r.indicator_id)).Nodup) := by
  intro rows
  induction rows with
  | nil => intro acc h; simpa [firstPerIndicator.go] using h
  | cons r rs ih =>
    intro acc h
    by_cases hm : acc.any (fun x => x.indicator_id = r.indicator_id)
    · simpa [firstPerIndicator.go, hm] using ih acc h
    · have hnotin : r.indicator_id ∉ acc.map (fun x => x.indicator_id) := by
        intro hin
        obtain ⟨x, hx, hxe⟩ := List.mem_map.mp hin
        have hany : acc.any (fun x => x.indicator_id = r.indicator_id) = true := by
          simp only [List.any_eq_true, decide_eq_true_eq]
          exact ⟨x, hx, hxe⟩
        exact hm hany
      have hstep : ((acc ++ [r]).map (fun x => x.indicator_id)).Nodup := by
        rw [List.map_append]
        simp only [List.map_cons, List.map_nil]
        rw [List.nodup_append]
        refine ⟨h, List.nodup_singleton _, ?_⟩
        intro a ha hb
        simp only [List.mem_singleton] at hb
        exact hnotin (hb ▸ ha)
      simpa [firstPerIndicator.go, hm] using ih (acc ++ [r]) hstep

theorem get_latest_ids_nodup (table : List SqlRow) (cc kw : String) :
    ((EconomicDataRepository.get_latest_by_indicator_name table cc kw).map
      (fun r => r.indicator_id)).Nodup := by
  unfold EconomicDataRepository.get_latest_by_indicator_name
  set base := (firstPerIndicator (sortByB scanOrder (table.filter (fun r =>
    r.country_code = cc ∧
    strContainsSub (strLower r.indicator_name) (strLower kw))))).map recordOfRow
    with hbase
  have hperm : ((sortByB valueDescOrder base).map (fun r => r.indicator_id)).Perm
      (base.map (fun r => r.indicator_id)) :=
    (sortByB_perm valueDescOrder base).map _
  rw [hperm.nodup_iff]
  rw [hbase, List.map_map]
  have hcomp : ((fun r : RepoRecord => r.indicator_id) ∘ recordOfRow) =
      fun r : SqlRow => r.indicator_id := by
    funext r
    rfl
  rw [hcomp]
  exact firstPerIndicator_go_ids_nodup _ [] (by simp)

/-! ## Claim theorems -/

/-- C1 (counterexample): the round trip is NOT lossless for arbitrary flat
metadata.  A metadata key that collides with a standard attribute (here
`"value"`) is spread over the standard attribute by `to_db_item`, so
`from_db_item` reads back the metadata value (99) instead of the record's
own value (7). -/
theorem C1_counterexample :
    collideRecord.value = .finite 7 ∧
    (from_db_item (to_db_item collideRecord)).map EconomicData.value =
      some (.finite 99) :=
  ⟨rfl, rfl⟩

/-- C1 (amended): for every record with a valid date whose metadata keys
are pairwise distinct and disjoint from the 16 item attribute names of
`standard_fields`, the mapper round trip reproduces every standard field
exactly, and reconstructs `metadata` as exactly the item attributes
outside `standard_fields` — which is the original metadata (with `None`
normalised to the empty dict). -/
theorem C1_roundtrip (e : EconomicData) (hd : e.date.Valid)
    (hk : ∀ p ∈ e.metadata.getD [], standard_fields.contains p.1 = false)
    (hn : ((e.metadata.getD []).map Prod.fst).Nodup) :
    from_db_item (to_db_item e) =
      some { e with metadata := some (e.metadata.getD []) } := by
  obtain ⟨cc, cn, iid, iname, v, dt, fq, u, src, rev, cur, meta⟩ := e
  simp only at hd hk hn ⊢
  set m := meta.getD [] with hmdef
  set e' : EconomicData := ⟨cc, cn, iid, iname, v, dt, fq, u, src, rev, cur, meta⟩
    with he'
  have hdisj : ∀ p ∈ m, dmem (standardItem e') p.1 = false := by
    intro p hp
    have hc' : ¬ p.1 ∈ standard_fields := by simpa using hk p hp
    simp only [standard_fields, List.mem_cons, List.not_mem_nil, or_false,
      not_or] at hc'
    obtain ⟨n1, n2, n3, n4, n5, n6, n7, n8, n9, n10, n11, n12, n13, n14, n15,
      n16⟩ := hc'
    simp [standardItem, dmem, Ne.symm n1, Ne.symm n2, Ne.symm n3, Ne.symm n4,
      Ne.symm n5, Ne.symm n6, Ne.symm n7, Ne.symm n8, Ne.symm n9, Ne.symm n10,
      Ne.symm n11, Ne.symm n12, Ne.symm n13, Ne.symm n14, Ne.symm n15,
      Ne.symm n16]
  have hmerge : to_db_item e' = standardItem e' ++ m :=
    dictMerge_of_disjoint _ _ hdisj hn
  have hfilter : (standardItem e' ++ m).filter
      (fun p => ¬ standard_fields.contains p.1) = m := by
    rw [List.filter_append]
    have h1 : (standardItem e').filter
        (fun p => ¬ standard_fields.contains p.1) = [] := by
      simp [standardItem, standard_fields, List.filter]
    have h2 : m.filter (fun p => ¬ standard_fields.contains p.1) = m := by
      apply List.filter_eq_self.mpr
      intro p hp
      have hns : ¬ p.1 ∈ standard_fields := by simpa using hk p hp
      simpa using hns
    rw [h1, h2, List.nil_append]
  have hdate : dget (standardItem e' ++ m) "date" =
      some (.str (formatDate dt)) := by simp [standardItem, dget]
  have hcc : dget (standardItem e' ++ m) "country_code" =
      some (.str cc) := by simp [standardItem, dget]
  have hcn : dget (standardItem e' ++ m) "country_name" =
      some (.str cn) := by simp [standardItem, dget]
  have hiid : dget (standardItem e' ++ m) "indicator_id" =
      some (.str iid) := by simp [standardItem, dget]
  have hiname : dget (standardItem e' ++ m) "indicator_name" =
      some (.str iname) := by simp [standardItem, dget]
  have hval : dget (standardItem e' ++ m) "value" =
      some (.num v) := by simp [standardItem, dget]
  have hunit : dget (standardItem e' ++ m) "unit" =
      some (.str u) := by simp [standardItem, dget]
  have hfq : dget (standardItem e' ++ m) "frequency" =
      some (.str fq) := by simp [standardItem, dget]
  have hsrc : dget (standardItem e' ++ m) "source" =
      some (.str src) := by simp [standardItem, dget]
  have hrev : dget (standardItem e' ++ m) "revision_number" =
      some (optIntVal rev) := by simp [standardItem, dget]
  have hcur : dget (standardItem e' ++ m) "currency" =
      some (optStrVal cur) := by simp [standardItem, dget]
  rw [hmerge]
  rcases rev with _ | n <;> rcases cur with _ | c <;>
    simp only [from_db_item, hdate, hcc, hcn, hiid, hiname, hval, hunit, hfq,
      hsrc, hrev, hcur, hfilter, dgetStr, dgetNum, dgetOptInt, dgetOptStr,
      optIntVal, optStrVal, parseIsoDate_formatDate dt hd,
      Option.bind_eq_bind, Option.some_bind, Option.pure_def]

/-- C1 (witness): the amended round trip at a concrete record with
collision-free metadata. -/
theorem C1_roundtrip_witness :
    from_db_item (to_db_item sampleRecord) =
      some { sampleRecord with
             metadata := some (sampleRecord.metadata.getD []) } :=
  C1_roundtrip sampleRecord (by decide) (by decide) (by decide)

/-- C2 (counterexample): a value string that parses to NaN is NOT dropped:
the Chilean preprocessor emits a record whose value is the non-finite NaN,
because `float("nan")` succeeds and only `ValueError` is caught. -/
theorem C2_counterexample :
    (processPoints (clStep demoCtx)
      [[("date", .str "2024-01-01"), ("value", .str "nan")]]).map
        EconomicData.value = [.nan] ∧
    PyFloat.isFinite .nan = false :=
  ⟨rfl, rfl⟩

/-- C2 (amended): in every preprocessor variant, whatever `float()` parses
is emitted unchanged — there is no finiteness check, so value strings that
parse to NaN or infinity produce records carrying those non-finite values
instead of being dropped; only strings `float()` rejects are dropped. -/
theorem C2_amended :
    (∀ (ctx : IndicatorCtx) (ds vs : String) (f : PyFloat) (dt : Date),
      parseStrptimeYmd ds = some dt → pyFloatOfString vs = some f →
      (processPoints (clStep ctx)
        [[("date", .str ds), ("value", .str vs)]]).map EconomicData.value
        = [f]) ∧
    (∀ (ctx : IndicatorCtx) (ds vs : String) (f : PyFloat) (dt : Date),
      usParseDate ds = some dt → pyFloatOfString vs = some f →
      (processPoints (usStep ctx)
        [[("date", .str ds), ("value", .str vs)]]).map EconomicData.value
        = [f]) ∧
    (∀ (ctx : IndicatorCtx) (ds vs : String) (f : PyFloat) (dt : Date),
      euParseDate ds = some dt → pyFloatOfString vs = some f →
      (euProcessCsvMetric ctx "date" "value"
        [[("date", .str ds), ("value", .str vs)]]).map EconomicData.value
        = [f]) :=
  ⟨fun ctx ds vs f dt hd hv => cl_emits_parsed_value ctx ds vs f dt hd hv,
   fun ctx ds vs f dt hd hv => us_emits_parsed_value ctx ds vs f dt hd hv,
   fun ctx ds vs f dt hd hv => eu_emits_parsed_value ctx ds vs f dt hd hv⟩

/-- C2 (witness): the amended statement at concrete inputs — the infinity
string is emitted as an infinite value by the Chilean variant. -/
theorem C2_witness :
    (processPoints (clStep demoCtx)
      [[("date", .str "2024-01-01"), ("value", .str "inf")]]).map
        EconomicData.value = [.inf] :=
  C2_amended.1 demoCtx "2024-01-01" "inf" .inf (Date.mk 2024 1 1) rfl rfl

/-- C3 (counterexample): the cleanup-and-retry pass does not exist in the
Chilean or US preprocessor: the value string "1,234.5%" fails `float()`
and the point is skipped, yielding no record. -/
theorem C3_counterexample :
    processPoints (clStep demoCtx)
      [[("date", .str "2024-01-01"), ("value", .str "1,234.5%")]] = [] ∧
    processPoints (usStep demoCtx)
      [[("date", .str "2024-01-01"), ("value", .str "1,234.5%")]] = [] :=
  ⟨rfl, rfl⟩

/-- C3 (amended): only the EU preprocessor attempts the cleanup pass
(strip thousands separators and percent signs, retry once): there
"1,234.5%" parses to 1234.5 and yields a record with value 1234.5; the
Chilean and US preprocessors skip a point whose value string fails
`float()` without any retry. -/
theorem C3_amended :
    (euProcessCsvMetric demoCtx "date" "value"
      [[("date", .str "2024-01-01"), ("value", .str "1,234.5%")]]).map
        EconomicData.value = [.finite (2469 / 2)] ∧
    (∀ (ctx : IndicatorCtx) (ds vs : String) (dt : Date),
      parseStrptimeYmd ds = some dt → pyFloatOfString vs = none →
      processPoints (clStep ctx) [[("date", .str ds), ("value", .str vs)]]
        = []) ∧
    (∀ (ctx : IndicatorCtx) (ds vs : String) (dt : Date),
      usParseDate ds = some dt → pyFloatOfString vs = none →
      processPoints (usStep ctx) [[("date", .str ds), ("value", .str vs)]]
        = []) := by
  refine ⟨?_, fun ctx ds vs dt hd hv => cl_skips_unparsable_value ctx ds vs dt hd hv,
    fun ctx ds vs dt hd hv => us_skips_unparsable_value ctx ds vs dt hd hv⟩
  have h : (euProcessCsvMetric demoCtx "date" "value"
      [[("date", .str "2024-01-01"), ("value", .str "1,234.5%")]]).map
        EconomicData.value =
      [.finite ((digitsVal ['1', '2', '3', '4'] : ℚ) +
        (digitsVal ['5'] : ℚ) / (10 : ℚ) ^ (1 : ℕ))] := rfl
  rw [h]
  have e1 : digitsVal ['1', '2', '3', '4'] = 1234 := rfl
  have e2 : digitsVal ['5'] = 5 := rfl
  rw [e1, e2]
  norm_num

/-- C3 (witness): the amended statement at the concrete input of the
claim — the Chilean variant drops the point carrying "1,234.5%". -/
theorem C3_witness :
    processPoints (clStep demoCtx)
      [[("date", .str "2024-02-02"), ("value", .str "1,234.5%")]] = [] :=
  C3_amended.2.1 demoCtx "2024-02-02" "1,234.5%" (Date.mk 2024 2 2) rfl rfl

/-- C4 (counterexample): "no partial commit" is false.  With two records
where the second row raises in `conn.execute`, the call returns `False`
immediately, but the first row IS persisted: the exception is caught
inside the `with sqlite3.connect(...)` block, so the context manager exits
cleanly and commits the rows already inserted. -/
theorem C4_counterexample :
    (SQLiteUploader.upload execFailsOnB [] [sqlRecA, sqlRecB]).success
      = false ∧
    (SQLiteUploader.upload execFailsOnB [] [sqlRecA, sqlRecB]).table
      = [rowOf sqlRecA] :=
  ⟨rfl, rfl⟩

/-- C4 (amended): a per-row exception does abort the call and return
`False` immediately (only the prefix of rows before the failing one is
ever executed, and success holds exactly when every row executes), but
the successfully executed prefix is committed into the table — a partial
commit within the call. -/
theorem C4_abort_semantics (execOk : SqlRow → Bool) (table : List SqlRow)
    (data : List EconomicData) (h : data ≠ []) :
    (SQLiteUploader.upload execOk table data).success
        = (data.map rowOf).all execOk ∧
    (SQLiteUploader.upload execOk table data).executed
        = (data.map rowOf).takeWhile execOk ∧
    (SQLiteUploader.upload execOk table data).table
        = ((data.map rowOf).takeWhile execOk).foldl upsertRow table := by
  have hne : ¬ data.isEmpty := by
    cases data with
    | nil => exact absurd rfl h
    | cons x xs => simp
  unfold SQLiteUploader.upload
  rw [if_neg hne]
  simpa using uploadLoop_spec execOk data table []

/-- C4 (witness): the abort semantics at the concrete two-record upload
whose second row raises. -/
theorem C4_witness :
    (SQLiteUploader.upload execFailsOnB [] [sqlRecA, sqlRecB]).success
        = ([sqlRecA, sqlRecB].map rowOf).all execFailsOnB ∧
    (SQLiteUploader.upload execFailsOnB [] [sqlRecA, sqlRecB]).executed
        = ([sqlRecA, sqlRecB].map rowOf).takeWhile execFailsOnB ∧
    (SQLiteUploader.upload execFailsOnB [] [sqlRecA, sqlRecB]).table
        = (([sqlRecA, sqlRecB].map rowOf).takeWhile execFailsOnB).foldl
            upsertRow [] :=
  C4_abort_semantics execFailsOnB [] [sqlRecA, sqlRecB]
    (List.cons_ne_nil _ _)

/-- C5: on the spec scenario table (imports at 2024-01-01 value 10 and
2024-02-01 value 20, exports value 50, keyword "port" matching both
case-insensitively), the repository returns the most recent imports row
and sorts the result by value descending: [exports(50), imports(20)].
In general the scan keeps one row per indicator_id (the first encountered
in `(indicator_id, date DESC)` order): the output never repeats an
indicator. -/
theorem C5_latest_per_indicator :
    EconomicDataRepository.get_latest_by_indicator_name
      [impJanRow, impFebRow, expRow] "US" "port"
      = [recordOfRow expRow, recordOfRow impFebRow] ∧
    ∀ (table : List SqlRow) (cc kw : String),
      ((EconomicDataRepository.get_latest_by_indicator_name table cc kw).map
        (fun r => r.indicator_id)).Nodup :=
  ⟨rfl, get_latest_ids_nodup⟩

/-- C6: the key-value uploader chunks in fixed batches of 25 in input
order: any 53-record upload issues exactly 3 `batch_write_items` calls
carrying 25, 25 and 3 items, whatever the client answers. -/
theorem C6_chunking (client : List PyDict → Except Unit Bool)
    (data : List EconomicData) (h : data.length = 53) :
    ((AWSUploader.upload client data).batches).map List.length
      = [25, 25, 3] := by
  have hne : ¬ data.isEmpty := by
    cases data with
    | nil => simp at h
    | cons x xs => simp
  unfold AWSUploader.upload
  rw [if_neg hne]
  set l := data.map to_db_item with hl
  have hlen : l.length = 53 := by simp [hl, h]
  have h0 : l ≠ [] := by
    intro hh
    rw [hh] at hlen
    simp at hlen
  have h1 : l.drop 25 ≠ [] := by
    intro hh
    have hc := congrArg List.length hh
    simp [hlen] at hc
  have h2 : (l.drop 25).drop 25 ≠ [] := by
    intro hh
    have hc := congrArg List.length hh
    simp [hlen] at hc
  have h3 : ((l.drop 25).drop 25).drop 25 = [] := by
    apply List.eq_nil_of_length_eq_zero
    simp [hlen]
  rw [chunks25_map_length l h0, chunks25_map_length _ h1,
    chunks25_map_length _ h2, h3]
  simp [hlen, chunks25]

/-- C6 (witness): the chunking at a concrete 53-record upload. -/
theorem C6_chunking_witness :
    ((AWSUploader.upload (fun _ => .ok true)
      (List.replicate 53 sampleRecord)).batches).map List.length
      = [25, 25, 3] :=
  C6_chunking (fun _ => .ok true) (List.replicate 53 sampleRecord) (by simp)

/-- C7: `upload([])` returns `False` on both backends without touching the
backend: the key-value uploader issues no batch call, the relational
uploader executes no insert and leaves the table unchanged. -/
theorem C7_empty_upload (client : List PyDict → Except Unit Bool)
    (execOk : SqlRow → Bool) (table : List SqlRow) :
    AWSUploader.upload client [] = ⟨false, []⟩ ∧
    SQLiteUploader.upload execOk table [] = ⟨false, [], table⟩ :=
  ⟨rfl, rfl⟩

/-- C8: in every preprocessor variant, a raw point whose date string fails
every accepted format is skipped at step level (no record, no escaping
exception), and concretely the strings "not-a-date" and "" leave the
output empty. -/
theorem C8_bad_date_dropped :
    (∀ (ctx : IndicatorCtx) (ds : String) (v : PyVal),
      parseStrptimeYmd ds = none →
      clStep ctx [("date", .str ds), ("value", v)] = .skipPoint) ∧
    (∀ (ctx : IndicatorCtx) (ds : String) (v : PyVal),
      usParseDate ds = none →
      usStep ctx [("date", .str ds), ("value", v)] = .skipPoint) ∧
    (∀ (ctx : IndicatorCtx) (ds : String) (v : PyVal),
      euParseDate ds = none →
      euCsvStep ctx "date" "value" [("date", .str ds), ("value", v)]
        = .skipPoint) ∧
    processPoints (clStep demoCtx)
      [[("date", .str "not-a-date"), ("value", .str "5")]] = [] ∧
    processPoints (clStep demoCtx)
      [[("date", .str ""), ("value", .str "5")]] = [] ∧
    euProcessCsvMetric demoCtx "date" "value"
      [[("date", .str "not-a-date"), ("value", .str "5")]] = [] ∧
    euProcessCsvMetric demoCtx "date" "value"
      [[("date", .str ""), ("value", .str "5")]] = [] :=
  ⟨fun ctx ds v hd => clStep_skips_bad_date ctx ds v hd,
   fun ctx ds v hd => usStep_skips_bad_date ctx ds v hd,
   fun ctx ds v hd => euCsvStep_skips_bad_date ctx ds v hd,
   rfl, rfl, rfl, rfl⟩

/-- C8 (witness): the general skip statements at the concrete malformed
date string of the claim. -/
theorem C8_witness :
    usStep demoCtx [("date", .str "not-a-date"), ("value", .str "5")]
      = .skipPoint :=
  C8_bad_date_dropped.2.1 demoCtx "not-a-date" (.str "5") rfl

/-- C9: `from_db_item` always reconstructs `metadata` as the dict of item
attributes outside the standard-field set — never `None`; concretely, a
record with `metadata = None` round-trips to `metadata = {}` (the empty
dict). -/
theorem C9_metadata_never_none :
    (∀ (item : PyDict) (r : EconomicData), from_db_item item = some r →
      r.metadata =
        some (item.filter (fun p => ¬ standard_fields.contains p.1))) ∧
    (from_db_item (to_db_item noMetaRecord)).map EconomicData.metadata
      = some (some []) :=
  ⟨from_db_item_metadata, rfl⟩

/-- C9 (witness): the general statement at the concrete item produced by
`to_db_item` from the metadata-less record. -/
theorem C9_witness :
    noMetaRoundTrip.metadata =
      some ((to_db_item noMetaRecord).filter
        (fun p => ¬ standard_fields.contains p.1)) :=
  C9_metadata_never_none.1 (to_db_item noMetaRecord) noMetaRoundTrip rfl

/-- C10: the Chilean and US preprocessors test missing fields by
truthiness, so a point whose value is the integer 0, the float 0.0 or the
empty string — or whose date is the falsy integer 0 — is silently dropped,
while the string "0" (truthy) yields a record with the valid value 0. -/
theorem C10_falsy_zero_dropped :
    processPoints (clStep demoCtx)
      [[("date", .str "2024-01-01"), ("value", .intv 0)]] = [] ∧
    processPoints (clStep demoCtx)
      [[("date", .str "2024-01-01"), ("value", .num (.finite 0))]] = [] ∧
    processPoints (clStep demoCtx)
      [[("date", .str "2024-01-01"), ("value", .str "")]] = [] ∧
    processPoints (usStep demoCtx)
      [[("date", .str "2024-01-01"), ("value", .intv 0)]] = [] ∧
    processPoints (usStep demoCtx)
      [[("date", .str "2024-01-01"), ("value", .num (.finite 0))]] = [] ∧
    processPoints (usStep demoCtx)
      [[("date", .str "2024-01-01"), ("value", .str "")]] = [] ∧
    processPoints (clStep demoCtx)
      [[("date", .intv 0), ("value", .str "5")]] = [] ∧
    (processPoints (clStep demoCtx)
      [[("date", .str "2024-01-01"), ("value", .str "0")]]).map
        EconomicData.value = [.finite 0] :=
  ⟨rfl, rfl, rfl, rfl, rfl, rfl, rfl, rfl⟩
